import Mathlib

/-!
Verification of the matchit pattern-matching engine (src/include/patterns.h).

The embedding models the engine over a closed universe of values
(integers and nested tuples) and a closed set of pattern variants that
mirrors the PatternTraits specializations of the source:

  Pat.wildcard   <-> Wildcard                         (patterns.h:113)
  Pat.lit        <-> default PatternTraits, pattern == value (:99)
  Pat.meet       <-> Meet<Pred>                       (:182)
  Pat.orPat      <-> Or<Patterns...>                  (:135)
  Pat.andPat     <-> And<Patterns...>                 (:254)
  Pat.notPat     <-> Not<Pattern>                     (:301)
  Pat.app        <-> App<Unary, Pattern>              (:210)
  Pat.id         <-> Id<Type, own>                    (:380), cells keyed by Nat
  Pat.ds         <-> Ds<Patterns...>                  (:431)
  Pat.ooo        <-> Ooo<Pattern>                     (:698)
  Pat.postCheck  <-> PostCheck<Pattern, Pred>         (:748)

Mutable Id cells are modelled by explicit state passing of an
environment mapping cell indices to optionally committed values; the
owning and referencing cell modes (IdTrait<true>/IdTrait<false>) share
the same commit logic and are not distinguished here.  The SFINAE
capability query MatchFuncDefinedV is modelled by the computable
predicate matchDefined over value shapes.  The OooMatchBreak exception
is modelled with Except: C++ exceptions do not roll back writes, so the
environment is carried alongside the exceptional result.
-/

set_option linter.unusedVariables false
set_option linter.unreachableTactic false
set_option linter.unusedTactic false

namespace Matchit

/-- Values: machine integers and nested fixed-arity tuples. -/
inductive Val : Type where
  | int : Int → Val
  | tup : List Val → Val

/-! Host equality, mirroring operator== on integers and std::tuple
(elementwise on equal-arity tuples; other combinations never compile in
the source and are guarded by eqDefined below). -/
mutual
def Val.beq : Val → Val → Bool
  | .int m, .int n => m == n
  | .tup xs, .tup ys => Val.beqList xs ys
  | .int _, .tup _ => false
  | .tup _, .int _ => false
def Val.beqList : List Val → List Val → Bool
  | [], [] => true
  | x :: xs, y :: ys => Val.beq x y && Val.beqList xs ys
  | [], _ :: _ => false
  | _ :: _, [] => false
end

/-! Whether operator== between the two value shapes compiles: both
integral, or tuples of equal arity with elementwise comparable slots. -/
mutual
def eqDefined : Val → Val → Bool
  | .int _, .int _ => true
  | .tup xs, .tup ys => eqDefinedList xs ys
  | .int _, .tup _ => false
  | .tup _, .int _ => false
def eqDefinedList : List Val → List Val → Bool
  | [], [] => true
  | x :: xs, y :: ys => eqDefined x y && eqDefinedList xs ys
  | [], _ :: _ => false
  | _ :: _, [] => false
end

/-- Capture-cell store: cell index to optionally committed value. -/
abbrev Env := Nat → Option Val

def emptyEnv : Env := fun _ => none

def updateEnv (e : Env) (i : Nat) (o : Option Val) : Env :=
  fun j => if j = i then o else e j

/-- Pattern variants (see the file header for the source mapping). -/
inductive Pat : Type where
  | wildcard : Pat
  | lit : Val → Pat
  | meet : (Val → Bool) → Pat
  | orPat : List Pat → Pat
  | andPat : List Pat → Pat
  | notPat : Pat → Pat
  | app : (Val → Val) → Pat → Pat
  | id : Nat → Pat
  | ds : List Pat → Pat
  | ooo : Pat → Pat
  | postCheck : Pat → (Env → Bool) → Pat

/-! Structural size, used as the termination measure of the matcher. -/
mutual
def Pat.size : Pat → Nat
  | .wildcard => 1
  | .lit _ => 1
  | .meet _ => 1
  | .orPat ps => 1 + Pat.sizeList ps
  | .andPat ps => 1 + Pat.sizeList ps
  | .notPat p => 1 + Pat.size p
  | .app _ p => 1 + Pat.size p
  | .id _ => 1
  | .ds ps => 1 + Pat.sizeList ps
  | .ooo p => 1 + Pat.size p
  | .postCheck p _ => 1 + Pat.size p
def Pat.sizeList : List Pat → Nat
  | [] => 0
  | p :: ps => 1 + Pat.size p + Pat.sizeList ps
end

/-- IsOoo / isOooV (patterns.h:602-610). -/
def isOoo : Pat → Bool
  | .ooo _ => true
  | _ => false

/-! MatchFuncDefinedV (patterns.h:472-484): whether a matching rule
exists for the value shape / pattern pair.  For Ds the rule follows the
TupleMatchHelper specializations; a Ds pattern applied to a non-tuple
value resolves only through the empty-pattern specialization
(patterns.h:543-552), which is the single instantiable combination. -/
mutual
def matchDefined : Val → Pat → Bool
  | _, .wildcard => true
  | v, .lit w => eqDefined w v
  | _, .meet _ => true
  | v, .orPat ps => definedList v ps
  | v, .andPat ps => definedList v ps
  | v, .notPat p => matchDefined v p
  | v, .app f p => matchDefined (f v) p
  | _, .id _ => true
  | .tup vs, .ds ps => dsDefined vs ps
  | .int _, .ds ps => ps.isEmpty
  | .tup vs, .ooo q => vs.all (fun v => matchDefined v q)
  | .int _, .ooo _ => false
  | v, .postCheck p _ => matchDefined v p
termination_by v p => Pat.size p
decreasing_by all_goals simp [Pat.size, Pat.sizeList] <;> omega
def definedList : Val → List Pat → Bool
  | _, [] => true
  | v, p :: ps => matchDefined v p && definedList v ps
termination_by v ps => Pat.sizeList ps
decreasing_by all_goals simp [Pat.size, Pat.sizeList] <;> omega
def dsDefined : List Val → List Pat → Bool
  | _, [] => true
  | vs, p :: ps =>
      if isOoo p then true
      else
        match vs with
        | [] => false
        | v :: vsRest => matchDefined v p && dsDefined vsRest ps
termination_by vs ps => Pat.sizeList ps
decreasing_by all_goals simp [Pat.size, Pat.sizeList] <;> omega
end

/-- Definedness of matching every element of a tuple slice against the
sub-pattern of an Ooo, as in PatternTraits of Ooo (patterns.h:725-735). -/
def allDefined (vs : List Val) (q : Pat) : Bool :=
  vs.all (fun v => matchDefined v q)

/-- Id cell commit rule, Id::matchValue (patterns.h:387-397): an
uncommitted cell commits the value and reports success; a committed
cell reports whether the stored value equals the new one. -/
def idMatchValue (i : Nat) (v : Val) (e : Env) : Bool × Env :=
  match e i with
  | some w => (Val.beq w v, e)
  | none => (true, updateEnv e i (some v))

/-! The resetId recursion (patterns.h:22-26 and every resetIdImpl):
clears the cell of every Id node reachable from the pattern. -/
mutual
def resetId : Pat → Env → Env
  | .wildcard, e => e
  | .lit _, e => e
  | .meet _, e => e
  | .orPat ps, e => resetIdList ps e
  | .andPat ps, e => resetIdList ps e
  | .notPat p, e => resetId p e
  | .app _ p, e => resetId p e
  | .id i, e => updateEnv e i none
  | .ds ps, e => resetIdList ps e
  | .ooo p, e => resetId p e
  | .postCheck p _, e => resetId p e
termination_by p e => Pat.size p
decreasing_by all_goals simp [Pat.size, Pat.sizeList] <;> omega
def resetIdList : List Pat → Env → Env
  | [], e => e
  | p :: ps, e => resetIdList ps (resetId p e)
termination_by ps e => Pat.sizeList ps
decreasing_by all_goals simp [Pat.size, Pat.sizeList] <;> omega
end

/-! Indices of the capture cells reachable from a pattern; the
reachability notion of resetId and of resetBindings in the spec. -/
mutual
def cellsOf : Pat → List Nat
  | .wildcard => []
  | .lit _ => []
  | .meet _ => []
  | .orPat ps => cellsOfList ps
  | .andPat ps => cellsOfList ps
  | .notPat p => cellsOf p
  | .app _ p => cellsOf p
  | .id i => [i]
  | .ds ps => cellsOfList ps
  | .ooo p => cellsOf p
  | .postCheck p _ => cellsOf p
termination_by p => Pat.size p
decreasing_by all_goals simp [Pat.size, Pat.sizeList] <;> omega
def cellsOfList : List Pat → List Nat
  | [] => []
  | p :: ps => cellsOf p ++ cellsOfList ps
termination_by ps => Pat.sizeList ps
decreasing_by all_goals simp [Pat.size, Pat.sizeList] <;> omega
end

/-! Stateless (flat) patterns: no Id cell, no PostCheck guard, and no
nested sequence or rest node.  Matching such a pattern neither reads
nor writes the environment, so its declarative meaning is a pure
predicate on the value; the element patterns in the declarative
reading of the rest-match search are taken from this fragment. -/
mutual
def stateless : Pat → Bool
  | .wildcard => true
  | .lit _ => true
  | .meet _ => true
  | .orPat ps => statelessList ps
  | .andPat ps => statelessList ps
  | .notPat p => stateless p
  | .app _ p => stateless p
  | .id _ => false
  | .ds _ => false
  | .ooo _ => false
  | .postCheck _ _ => false
termination_by p => Pat.size p
decreasing_by all_goals simp [Pat.size, Pat.sizeList] <;> omega
def statelessList : List Pat → Bool
  | [] => true
  | p :: ps => stateless p && statelessList ps
termination_by ps => Pat.sizeList ps
decreasing_by all_goals simp [Pat.size, Pat.sizeList] <;> omega
end

/-! The matcher.  matchPattern dispatches on the pattern variant
(patterns.h:15-20 with each PatternTraits::matchPatternImpl);
matchOrList and matchAndList are the left-to-right short-circuit folds
of Or and And (patterns.h:162-171 and 281-290); matchAllOoo is the
whole-slice rule of PatternTraits of Ooo (patterns.h:725-735);
tupleMatchImpl is the TupleMatchHelper chain (patterns.h:523-575);
tryOooMatch, tryOooMatchImpl and tryOooMatchImplHelper are the
rest-match resolver (patterns.h:633-696), with tryOooMatchFold the
fold expression over the candidate split lengths inside the try block
of tryOooMatchImpl, and Except.error the OooMatchBreak signal. -/
mutual

def matchPattern (v : Val) (p : Pat) (e : Env) : Bool × Env :=
  match p with
  | .wildcard => (true, e)
  | .lit w => (Val.beq w v, e)
  | .meet f => (f v, e)
  | .orPat ps => matchOrList v ps e
  | .andPat ps => matchAndList v ps e
  | .notPat q =>
      match matchPattern v q e with
      | (b, e1) => (!b, e1)
  | .app f q => matchPattern (f v) q e
  | .id i => idMatchValue i v e
  | .ds ps =>
      match v with
      | .tup vs => tupleMatchImpl vs ps e
      | .int _ => (false, e)
  | .ooo q =>
      match v with
      | .tup vs => matchAllOoo vs q e
      | .int _ => (false, e)
  | .postCheck q g =>
      match matchPattern v q e with
      | (b, e1) => if b then (g e1, e1) else (false, e1)
termination_by (Pat.size p, 0, 0, 0)
decreasing_by all_goals decreasing_with (simp [Pat.size, Pat.sizeList] <;> omega)

def matchOrList (v : Val) (ps : List Pat) (e : Env) : Bool × Env :=
  match ps with
  | [] => (false, e)
  | p :: rest =>
      match matchPattern v p e with
      | (true, e1) => (true, e1)
      | (false, e1) => matchOrList v rest e1
termination_by (Pat.sizeList ps, 0, 0, 0)
decreasing_by all_goals decreasing_with (simp [Pat.size, Pat.sizeList] <;> omega)

def matchAndList (v : Val) (ps : List Pat) (e : Env) : Bool × Env :=
  match ps with
  | [] => (true, e)
  | p :: rest =>
      match matchPattern v p e with
      | (true, e1) => matchAndList v rest e1
      | (false, e1) => (false, e1)
termination_by (Pat.sizeList ps, 0, 0, 0)
decreasing_by all_goals decreasing_with (simp [Pat.size, Pat.sizeList] <;> omega)

def matchAllOoo (vs : List Val) (q : Pat) (e : Env) : Bool × Env :=
  match vs with
  | [] => (true, e)
  | v :: rest =>
      match matchPattern v q e with
      | (true, e1) => matchAllOoo rest q e1
      | (false, e1) => (false, e1)
termination_by (Pat.size q, vs.length, 0, 0)
decreasing_by all_goals decreasing_with (simp [Pat.size, Pat.sizeList] <;> omega)

def tupleMatchImpl (vs : List Val) (ps : List Pat) (e : Env) : Bool × Env :=
  match ps with
  | [] => (vs.isEmpty, e)
  | p :: rest =>
      if isOoo p then tryOooMatch vs (p :: rest) e
      else
        match vs with
        | [] => (false, e)
        | v :: vsRest =>
            match matchPattern v p e with
            | (true, e1) => tupleMatchImpl vsRest rest e1
            | (false, e1) => (false, e1)
termination_by (Pat.sizeList ps, vs.length, 3, 0)
decreasing_by all_goals decreasing_with (simp [Pat.size, Pat.sizeList] <;> omega)

def tryOooMatch (vs : List Val) (ps : List Pat) (e : Env) : Bool × Env :=
  match ps with
  | [] => (vs.isEmpty, e)
  | p :: rest =>
      if isOoo p then tryOooMatchImpl vs (p :: rest) e
      else
        match vs with
        | [] => (false, e)
        | v :: vsRest =>
            if matchDefined v p then
              match matchPattern v p e with
              | (true, e1) => tryOooMatch vsRest rest e1
              | (false, e1) => (false, e1)
            else (false, e)
termination_by (Pat.sizeList ps, vs.length, 2, 0)
decreasing_by all_goals decreasing_with (simp [Pat.size, Pat.sizeList] <;> omega)

def tryOooMatchImpl (vs : List Val) (ps : List Pat) (e : Env) : Bool × Env :=
  tryOooMatchFold vs ps (List.range (vs.length + 1)) e
termination_by (Pat.sizeList ps, vs.length, 1, vs.length + 2)
decreasing_by all_goals decreasing_with (simp [Pat.size, Pat.sizeList] <;> omega)

def tryOooMatchFold (vs : List Val) (ps : List Pat) (idx : List Nat) (e : Env) :
    Bool × Env :=
  match idx with
  | [] => (false, e)
  | i :: rest =>
      match tryOooMatchImplHelper i vs ps e with
      | (Except.error _, e1) => (false, e1)
      | (Except.ok true, e1) => (true, e1)
      | (Except.ok false, e1) => tryOooMatchFold vs ps rest e1
termination_by (Pat.sizeList ps, vs.length, 1, idx.length)
decreasing_by all_goals decreasing_with (simp [Pat.size, Pat.sizeList] <;> omega)

def tryOooMatchImplHelper (i : Nat) (vs : List Val) (ps : List Pat) (e : Env) :
    Except Unit Bool × Env :=
  match i, ps with
  | 0, _ :: rest =>
      match tryOooMatch vs rest e with
      | (b, e1) => (Except.ok b, e1)
  | Nat.succ j, Pat.ooo q :: rest =>
      if (vs.take (j + 1)).all (fun w => matchDefined w q) then
        match vs[j]? with
        | some v =>
            match matchPattern v q e with
            | (false, e1) => (Except.error (), e1)
            | (true, e1) =>
                match tryOooMatch (vs.drop (j + 1)) rest e1 with
                | (false, e2) => (Except.ok false, e2)
                | (true, e2) => (Except.ok true, e2)
        | none => (Except.error (), e)
      else (Except.error (), e)
  | 0, [] => (Except.error (), e)
  | Nat.succ _, _ => (Except.error (), e)
termination_by (Pat.sizeList ps, vs.length, 0, 0)
decreasing_by all_goals decreasing_with (simp [Pat.size, Pat.sizeList] <;> omega)

end

/-- Per-arm entry point PatternPair::matchValue (patterns.h:38-43):
resets all bindings of the arm pattern, then matches. -/
def PatternPair.matchValue (p : Pat) (v : Val) (e : Env) : Bool × Env :=
  matchPattern v p (resetId p e)

/-- Result of matching a stateless pattern, read off at the empty
environment; for stateless patterns the result is the same at every
environment (statelessMatch below). -/
def smatch (v : Val) (p : Pat) : Bool :=
  (matchPattern v p emptyEnv).1

/-- Declarative elementwise match of a fixed (rest-free) pattern list:
arity must agree exactly and every slot must match. -/
def fixedMatch : List Val → List Pat → Bool
  | [], [] => true
  | v :: vs, p :: ps => smatch v p && fixedMatch vs ps
  | [], _ :: _ => false
  | _ :: _, [] => false

/-- Spec-side reference search for the rest-match resolver, written
from the words of the spec alone: try every split length K from 0 to
N; a split succeeds when every element of the middle slice of length K
individually matches the sub-pattern of the Rest and the patterns
after the Rest match the remaining slice. -/
def exhaustiveOoo (vs : List Val) (q : Pat) (post : List Pat) : Bool :=
  (List.range (vs.length + 1)).any fun K =>
    ((vs.take K).all fun v => smatch v q) && fixedMatch (vs.drop K) post

/-- Spec-side meaning of a whole sequence pattern with exactly one
Rest: the fixed prefix matches slot by slot, and some split length K
makes the middle slice and the fixed suffix match. -/
def specOooMatch (vs : List Val) (pre : List Pat) (q : Pat) (post : List Pat) :
    Bool :=
  fixedMatch (vs.take pre.length) pre &&
    ((List.range (vs.length - pre.length + 1)).any fun K =>
      (((vs.drop pre.length).take K).all fun v => smatch v q) &&
        fixedMatch (vs.drop (pre.length + K)) post)

/-- The isEven predicate of the spec examples. -/
def evenPred : Val → Bool
  | .int n => n % 2 == 0
  | .tup _ => false

/-- Predicate pattern meet(isEven). -/
def evenP : Pat := .meet evenPred

/-- The pattern list of Sequence(Rest(isEven), Literal(5)). -/
def restEvenLit5 : List Pat := [.ooo evenP, .lit (.int 5)]

/-! Unfolding equations for the well-founded matcher definitions, in
the forms used by the proofs below. -/

theorem matchPattern_wildcard (v : Val) (e : Env) :
    matchPattern v .wildcard e = (true, e) := by
  rw [matchPattern.eq_def]

theorem matchPattern_lit (w v : Val) (e : Env) :
    matchPattern v (.lit w) e = (Val.beq w v, e) := by
  rw [matchPattern.eq_def]

theorem matchPattern_meet (f : Val → Bool) (v : Val) (e : Env) :
    matchPattern v (.meet f) e = (f v, e) := by
  rw [matchPattern.eq_def]

theorem matchPattern_or (v : Val) (ps : List Pat) (e : Env) :
    matchPattern v (.orPat ps) e = matchOrList v ps e := by
  rw [matchPattern.eq_def]

theorem matchPattern_and (v : Val) (ps : List Pat) (e : Env) :
    matchPattern v (.andPat ps) e = matchAndList v ps e := by
  rw [matchPattern.eq_def]

theorem matchPattern_not (v : Val) (q : Pat) (e : Env) :
    matchPattern v (.notPat q) e =
      (!(matchPattern v q e).1, (matchPattern v q e).2) := by
  rw [matchPattern.eq_def]

theorem matchPattern_app (f : Val → Val) (v : Val) (q : Pat) (e : Env) :
    matchPattern v (.app f q) e = matchPattern (f v) q e := by
  rw [matchPattern.eq_def]

theorem matchPattern_id (i : Nat) (v : Val) (e : Env) :
    matchPattern v (.id i) e = idMatchValue i v e := by
  rw [matchPattern.eq_def]

theorem matchPattern_ds (vs : List Val) (ps : List Pat) (e : Env) :
    matchPattern (.tup vs) (.ds ps) e = tupleMatchImpl vs ps e := by
  rw [matchPattern.eq_def]

theorem matchPattern_ds_int (n : Int) (ps : List Pat) (e : Env) :
    matchPattern (.int n) (.ds ps) e = (false, e) := by
  rw [matchPattern.eq_def]

theorem matchPattern_oooPat (vs : List Val) (q : Pat) (e : Env) :
    matchPattern (.tup vs) (.ooo q) e = matchAllOoo vs q e := by
  rw [matchPattern.eq_def]

theorem matchPattern_ooo_int (n : Int) (q : Pat) (e : Env) :
    matchPattern (.int n) (.ooo q) e = (false, e) := by
  rw [matchPattern.eq_def]

theorem matchPattern_postCheck (v : Val) (q : Pat) (g : Env → Bool) (e : Env) :
    matchPattern v (.postCheck q g) e =
      (if (matchPattern v q e).1 then (g (matchPattern v q e).2, (matchPattern v q e).2)
       else (false, (matchPattern v q e).2)) := by
  rw [matchPattern.eq_def]

theorem matchOrList_nil (v : Val) (e : Env) :
    matchOrList v [] e = (false, e) := by
  rw [matchOrList.eq_def]

theorem matchOrList_cons (v : Val) (p : Pat) (rest : List Pat) (e : Env) :
    matchOrList v (p :: rest) e =
      (if (matchPattern v p e).1 then matchPattern v p e
       else matchOrList v rest (matchPattern v p e).2) := by
  rw [matchOrList.eq_def]
  rcases h : matchPattern v p e with ⟨b, e1⟩
  cases b <;> simp [h]

theorem matchAndList_nil (v : Val) (e : Env) :
    matchAndList v [] e = (true, e) := by
  rw [matchAndList.eq_def]

theorem matchAndList_cons (v : Val) (p : Pat) (rest : List Pat) (e : Env) :
    matchAndList v (p :: rest) e =
      (if (matchPattern v p e).1 then matchAndList v rest (matchPattern v p e).2
       else (false, (matchPattern v p e).2)) := by
  rw [matchAndList.eq_def]
  rcases h : matchPattern v p e with ⟨b, e1⟩
  cases b <;> simp [h]

theorem matchAllOoo_nil (q : Pat) (e : Env) :
    matchAllOoo [] q e = (true, e) := by
  rw [matchAllOoo.eq_def]

theorem matchAllOoo_cons (v : Val) (rest : List Val) (q : Pat) (e : Env) :
    matchAllOoo (v :: rest) q e =
      (if (matchPattern v q e).1 then matchAllOoo rest q (matchPattern v q e).2
       else (false, (matchPattern v q e).2)) := by
  rw [matchAllOoo.eq_def]
  rcases h : matchPattern v q e with ⟨b, e1⟩
  cases b <;> simp [h]

theorem tupleMatchImpl_nil (vs : List Val) (e : Env) :
    tupleMatchImpl vs [] e = (vs.isEmpty, e) := by
  rw [tupleMatchImpl.eq_def]

theorem tupleMatchImpl_ooo (vs : List Val) (p : Pat) (rest : List Pat) (e : Env)
    (h : isOoo p = true) :
    tupleMatchImpl vs (p :: rest) e = tryOooMatch vs (p :: rest) e := by
  rw [tupleMatchImpl.eq_def]
  simp [h]

theorem tupleMatchImpl_cons_nil (p : Pat) (rest : List Pat) (e : Env)
    (h : isOoo p = false) :
    tupleMatchImpl [] (p :: rest) e = (false, e) := by
  rw [tupleMatchImpl.eq_def]
  simp [h]

theorem tupleMatchImpl_cons_cons (v : Val) (vsRest : List Val) (p : Pat)
    (rest : List Pat) (e : Env) (h : isOoo p = false) :
    tupleMatchImpl (v :: vsRest) (p :: rest) e =
      (if (matchPattern v p e).1 then tupleMatchImpl vsRest rest (matchPattern v p e).2
       else (false, (matchPattern v p e).2)) := by
  rw [tupleMatchImpl.eq_def]
  simp only [h, Bool.false_eq_true, if_false]
  rcases hm : matchPattern v p e with ⟨b, e1⟩
  cases b <;> simp [hm]

theorem tryOooMatch_nil (vs : List Val) (e : Env) :
    tryOooMatch vs [] e = (vs.isEmpty, e) := by
  rw [tryOooMatch.eq_def]

theorem tryOooMatch_ooo (vs : List Val) (p : Pat) (rest : List Pat) (e : Env)
    (h : isOoo p = true) :
    tryOooMatch vs (p :: rest) e = tryOooMatchImpl vs (p :: rest) e := by
  rw [tryOooMatch.eq_def]
  simp [h]

theorem tryOooMatch_cons_nil (p : Pat) (rest : List Pat) (e : Env)
    (h : isOoo p = false) :
    tryOooMatch [] (p :: rest) e = (false, e) := by
  rw [tryOooMatch.eq_def]
  simp [h]

theorem tryOooMatch_cons_cons (v : Val) (vsRest : List Val) (p : Pat)
    (rest : List Pat) (e : Env) (h : isOoo p = false) :
    tryOooMatch (v :: vsRest) (p :: rest) e =
      (if matchDefined v p then
        (if (matchPattern v p e).1 then tryOooMatch vsRest rest (matchPattern v p e).2
         else (false, (matchPattern v p e).2))
       else (false, e)) := by
  rw [tryOooMatch.eq_def]
  simp only [h, Bool.false_eq_true, if_false]
  rcases hd : matchDefined v p with _ | _
  · simp [hd]
  · rcases hm : matchPattern v p e with ⟨b, e1⟩
    cases b <;> simp [hd, hm]

theorem tryOooMatchImpl_def (vs : List Val) (ps : List Pat) (e : Env) :
    tryOooMatchImpl vs ps e = tryOooMatchFold vs ps (List.range (vs.length + 1)) e := by
  rw [tryOooMatchImpl.eq_def]

theorem tryOooMatchFold_nil (vs : List Val) (ps : List Pat) (e : Env) :
    tryOooMatchFold vs ps [] e = (false, e) := by
  rw [tryOooMatchFold.eq_def]

theorem tryOooMatchFold_cons_error (vs : List Val) (ps : List Pat) (i : Nat)
    (rest : List Nat) (e e1 : Env) (u : Unit)
    (h : tryOooMatchImplHelper i vs ps e = (Except.error u, e1)) :
    tryOooMatchFold vs ps (i :: rest) e = (false, e1) := by
  rw [tryOooMatchFold.eq_def]
  simp [h]

theorem tryOooMatchFold_cons_true (vs : List Val) (ps : List Pat) (i : Nat)
    (rest : List Nat) (e e1 : Env)
    (h : tryOooMatchImplHelper i vs ps e = (Except.ok true, e1)) :
    tryOooMatchFold vs ps (i :: rest) e = (true, e1) := by
  rw [tryOooMatchFold.eq_def]
  simp [h]

theorem tryOooMatchFold_cons_false (vs : List Val) (ps : List Pat) (i : Nat)
    (rest : List Nat) (e e1 : Env)
    (h : tryOooMatchImplHelper i vs ps e = (Except.ok false, e1)) :
    tryOooMatchFold vs ps (i :: rest) e = tryOooMatchFold vs ps rest e1 := by
  rw [tryOooMatchFold.eq_def]
  simp [h]

theorem tryOooMatchImplHelper_zero (vs : List Val) (p : Pat) (rest : List Pat)
    (e : Env) :
    tryOooMatchImplHelper 0 vs (p :: rest) e =
      (Except.ok (tryOooMatch vs rest e).1, (tryOooMatch vs rest e).2) := by
  rw [tryOooMatchImplHelper.eq_def]

theorem tryOooMatchFold_cons (vs : List Val) (ps : List Pat) (i : Nat)
    (rest : List Nat) (e : Env) :
    tryOooMatchFold vs ps (i :: rest) e =
      (match tryOooMatchImplHelper i vs ps e with
       | (Except.error _, e1) => (false, e1)
       | (Except.ok true, e1) => (true, e1)
       | (Except.ok false, e1) => tryOooMatchFold vs ps rest e1) := by
  rw [tryOooMatchFold.eq_def]

theorem tryOooMatchImplHelper_succ_eq (j : Nat) (vs : List Val) (q : Pat)
    (rest : List Pat) (e : Env) :
    tryOooMatchImplHelper (j + 1) vs (.ooo q :: rest) e =
      (if (vs.take (j + 1)).all (fun w => matchDefined w q) then
        match vs[j]? with
        | some v =>
            (match matchPattern v q e with
             | (false, e1) => (Except.error (), e1)
             | (true, e1) =>
                 match tryOooMatch (vs.drop (j + 1)) rest e1 with
                 | (false, e2) => (Except.ok false, e2)
                 | (true, e2) => (Except.ok true, e2))
        | none => (Except.error (), e)
       else (Except.error (), e)) := by
  rw [tryOooMatchImplHelper.eq_def]

theorem tryOooMatchImplHelper_succ_undefined (j : Nat) (vs : List Val) (q : Pat)
    (rest : List Pat) (e : Env)
    (h : (vs.take (j + 1)).all (fun w => matchDefined w q) = false) :
    tryOooMatchImplHelper (j + 1) vs (.ooo q :: rest) e = (Except.error (), e) := by
  rw [tryOooMatchImplHelper.eq_def]
  simp [h]

theorem tryOooMatchImplHelper_succ (j : Nat) (vs : List Val) (v : Val) (q : Pat)
    (rest : List Pat) (e : Env)
    (hg : (vs.take (j + 1)).all (fun w => matchDefined w q) = true)
    (hv : vs[j]? = some v) :
    tryOooMatchImplHelper (j + 1) vs (.ooo q :: rest) e =
      (if (matchPattern v q e).1 then
        (Except.ok (tryOooMatch (vs.drop (j + 1)) rest (matchPattern v q e).2).1,
         (tryOooMatch (vs.drop (j + 1)) rest (matchPattern v q e).2).2)
       else (Except.error (), (matchPattern v q e).2)) := by
  rw [tryOooMatchImplHelper.eq_def]
  simp only [hg, if_true, hv]
  rcases hm : matchPattern v q e with ⟨b, e1⟩
  cases b
  · simp [hm]
  · rcases hr : tryOooMatch (vs.drop (j + 1)) rest e1 with ⟨b2, e2⟩
    cases b2 <;> simp [hm, hr]

/-- A stateless pattern is never a rest pattern. -/
theorem isOoo_false_of_stateless {p : Pat} (h : stateless p = true) :
    isOoo p = false := by
  cases p <;> simp_all [isOoo, stateless]

/-- Every pattern has positive size. -/
theorem Pat.size_pos (p : Pat) : 1 ≤ p.size := by
  cases p <;> simp [Pat.size]

/-! Matching a stateless pattern neither reads nor writes the
environment: at every environment the result bit agrees with the one
computed at the empty environment and the environment comes back
unchanged.  Proved by strong induction on the pattern size, jointly
with the corresponding statements for the Or and And folds. -/

theorem statelessAux (n : Nat) :
    (∀ p : Pat, Pat.size p ≤ n → ∀ (v : Val) (e : Env), stateless p = true →
        matchPattern v p e = ((matchPattern v p emptyEnv).1, e)) /\
    (∀ ps : List Pat, Pat.sizeList ps ≤ n → ∀ (v : Val) (e : Env),
        statelessList ps = true →
        matchOrList v ps e = ((matchOrList v ps emptyEnv).1, e)) /\
    (∀ ps : List Pat, Pat.sizeList ps ≤ n → ∀ (v : Val) (e : Env),
        statelessList ps = true →
        matchAndList v ps e = ((matchAndList v ps emptyEnv).1, e)) := by
  induction n with
  | zero =>
      refine ⟨fun p hp => ?_, fun ps hp v e hs => ?_, fun ps hp v e hs => ?_⟩
      · have := Pat.size_pos p; omega
      · cases ps with
        | nil => simp [matchOrList_nil]
        | cons p rest => simp [Pat.sizeList] at hp
      · cases ps with
        | nil => simp [matchAndList_nil]
        | cons p rest => simp [Pat.sizeList] at hp
  | succ n ihn =>
      obtain ⟨ihP, ihOr, ihAnd⟩ := ihn
      refine ⟨fun p hp v e h => ?_, fun ps hp v e hs => ?_, fun ps hp v e hs => ?_⟩
      · cases p with
        | wildcard => simp [matchPattern_wildcard]
        | lit w => simp [matchPattern_lit]
        | meet f => simp [matchPattern_meet]
        | orPat ps =>
            rw [matchPattern_or, matchPattern_or]
            have hsize : Pat.sizeList ps ≤ n := by simp [Pat.size] at hp; omega
            exact ihOr ps hsize v e (by simpa [stateless] using h)
        | andPat ps =>
            rw [matchPattern_and, matchPattern_and]
            have hsize : Pat.sizeList ps ≤ n := by simp [Pat.size] at hp; omega
            exact ihAnd ps hsize v e (by simpa [stateless] using h)
        | notPat q =>
            have hq : stateless q = true := by simpa [stateless] using h
            have hsize : Pat.size q ≤ n := by simp [Pat.size] at hp; omega
            rw [matchPattern_not, matchPattern_not, ihP q hsize v e hq]
        | app f q =>
            have hq : stateless q = true := by simpa [stateless] using h
            have hsize : Pat.size q ≤ n := by simp [Pat.size] at hp; omega
            rw [matchPattern_app, matchPattern_app]
            exact ihP q hsize (f v) e hq
        | id i => simp [stateless] at h
        | ds ps => simp [stateless] at h
        | ooo q => simp [stateless] at h
        | postCheck q g => simp [stateless] at h
      · cases ps with
        | nil => simp [matchOrList_nil]
        | cons p rest =>
            have hb : Pat.size p ≤ n /\ Pat.sizeList rest ≤ n + 1 := by
              simp [Pat.sizeList] at hp; omega
            have hp1 : stateless p = true := by
              have := hs; simp [statelessList] at this; exact this.1
            have hr : statelessList rest = true := by
              have := hs; simp [statelessList] at this; exact this.2
            rw [matchOrList_cons, matchOrList_cons, ihP p hb.1 v e hp1,
              ihP p hb.1 v emptyEnv hp1]
            cases hx : (matchPattern v p emptyEnv).1 <;> simp [hx]
            have hr2 : Pat.sizeList rest ≤ n := by simp [Pat.sizeList] at hp; omega
            exact ihOr rest hr2 v e hr
      · cases ps with
        | nil => simp [matchAndList_nil]
        | cons p rest =>
            have hb : Pat.size p ≤ n := by simp [Pat.sizeList] at hp; omega
            have hp1 : stateless p = true := by
              have := hs; simp [statelessList] at this; exact this.1
            have hr : statelessList rest = true := by
              have := hs; simp [statelessList] at this; exact this.2
            rw [matchAndList_cons, matchAndList_cons, ihP p hb v e hp1,
              ihP p hb v emptyEnv hp1]
            cases hx : (matchPattern v p emptyEnv).1 <;> simp [hx]
            have hr2 : Pat.sizeList rest ≤ n := by simp [Pat.sizeList] at hp; omega
            exact ihAnd rest hr2 v e hr

/-- Matching a stateless pattern is environment independent. -/
theorem statelessMatch (v : Val) (p : Pat) (e : Env) (h : stateless p = true) :
    matchPattern v p e = ((matchPattern v p emptyEnv).1, e) :=
  (statelessAux (Pat.size p)).1 p (Nat.le_refl _) v e h

/-- Stateless matching phrased with smatch. -/
theorem statelessMatch_smatch (v : Val) (p : Pat) (e : Env)
    (h : stateless p = true) :
    matchPattern v p e = (smatch v p, e) :=
  statelessMatch v p e h

/-- fixedMatch against the empty pattern list tests emptiness. -/
theorem fixedMatch_nilPats (vs : List Val) : fixedMatch vs [] = vs.isEmpty := by
  cases vs <;> rfl

/-- On a rest-free stateless pattern list whose pairings are all
defined, the elementwise walk of tryOooMatch computes the declarative
fixed-arity match and leaves the environment unchanged. -/
theorem tryOooMatch_fixed (vs : List Val) (ps : List Pat) (e : Env)
    (hs : statelessList ps = true)
    (hd : ∀ v ∈ vs, ∀ p ∈ ps, matchDefined v p = true) :
    tryOooMatch vs ps e = (fixedMatch vs ps, e) := by
  induction ps generalizing vs e with
  | nil => rw [tryOooMatch_nil, fixedMatch_nilPats]
  | cons p rest ih =>
      have hp : stateless p = true := by
        have := hs; simp [statelessList] at this; exact this.1
      have hr : statelessList rest = true := by
        have := hs; simp [statelessList] at this; exact this.2
      have hno : isOoo p = false := isOoo_false_of_stateless hp
      cases vs with
      | nil => rw [tryOooMatch_cons_nil _ _ _ hno]; rfl
      | cons v vsRest =>
          rw [tryOooMatch_cons_cons _ _ _ _ _ hno]
          have hdv : matchDefined v p = true :=
            hd v (List.mem_cons_self v vsRest) p (List.mem_cons_self p rest)
          rw [statelessMatch_smatch v p e hp]
          cases hb : smatch v p with
          | false => simp [fixedMatch, hdv, hb]
          | true =>
              have hrec := ih vsRest e hr (fun w hw pp hpp =>
                hd w (List.mem_cons_of_mem _ hw) pp (List.mem_cons_of_mem _ hpp))
              simp [fixedMatch, hdv, hb, hrec]

/-- An indexed element lies in every prefix slice long enough to
contain it. -/
theorem mem_take_of_index (vs : List Val) {j K : Nat} (hj : j < vs.length)
    (hjK : j < K) : vs[j] ∈ vs.take K := by
  have hlen : j < (vs.take K).length := by simp [List.length_take]; omega
  have hEq : (vs.take K).get ⟨j, hlen⟩ = vs[j] := by
    simp [List.getElem_take]
  rw [← hEq]
  exact List.getElem_mem hlen

/-- The ascending-split search with per-element pruning, run on the
candidate list of split lengths from a upward, computes the exhaustive
disjunction over those same candidates, provided every element before
the first candidate already passed the per-element check.  This is the
invariant form of the soundness of the monotonic pruning rule. -/
theorem tryOooMatchFold_spec (vs : List Val) (q : Pat) (post : List Pat) (e : Env)
    (hq : stateless q = true) (hpost : statelessList post = true)
    (hdq : ∀ v ∈ vs, matchDefined v q = true)
    (hdp : ∀ v ∈ vs, ∀ p ∈ post, matchDefined v p = true) :
    ∀ b a, a + b = vs.length + 1 →
      (∀ j, (hj : j < vs.length) → j + 1 < a → smatch vs[j] q = true) →
      tryOooMatchFold vs (.ooo q :: post) (List.range' a b) e =
        ((List.range' a b).any (fun K =>
            ((vs.take K).all fun v => smatch v q) && fixedMatch (vs.drop K) post),
         e) := by
  intro b
  induction b with
  | zero =>
      intro a hab hinv
      simp [List.range'_zero, tryOooMatchFold_nil]
  | succ b ihb =>
      intro a hab hinv
      rw [List.range'_succ]
      cases a with
      | zero =>
          have h0 : tryOooMatchImplHelper 0 vs (.ooo q :: post) e =
              (Except.ok (fixedMatch vs post), e) := by
            rw [tryOooMatchImplHelper_zero, tryOooMatch_fixed vs post e hpost hdp]
          cases hfx : fixedMatch vs post with
          | true =>
              rw [tryOooMatchFold_cons_true _ _ _ _ _ _ (by rw [h0, hfx])]
              simp [hfx]
          | false =>
              rw [tryOooMatchFold_cons_false _ _ _ _ _ _ (by rw [h0, hfx])]
              rw [ihb 1 (by omega) (fun j hj hlt => absurd hlt (by omega))]
              simp [hfx]
      | succ j =>
          have hjlt : j < vs.length := by omega
          have hguard : (vs.take (j + 1)).all (fun w => matchDefined w q) = true := by
            simp only [List.all_eq_true]
            intro w hw
            exact hdq w (List.mem_of_mem_take hw)
          have hgetq : vs[j]? = some vs[j] := List.getElem?_eq_getElem hjlt
          have hdropfix : tryOooMatch (vs.drop (j + 1)) post e =
              (fixedMatch (vs.drop (j + 1)) post, e) :=
            tryOooMatch_fixed _ post e hpost (fun w hw pp hpp =>
              hdp w (List.mem_of_mem_drop hw) pp hpp)
          have hstep := tryOooMatchImplHelper_succ j vs vs[j] q post e hguard hgetq
          rw [statelessMatch_smatch vs[j] q e hq] at hstep
          cases hb2 : smatch vs[j] q with
          | false =>
              rw [hb2] at hstep
              simp only [Prod.fst, Prod.snd] at hstep
              have herr : tryOooMatchImplHelper (j + 1) vs (.ooo q :: post) e =
                  (Except.error (), e) := by
                simp [hstep]
              rw [tryOooMatchFold_cons_error _ _ _ _ _ _ _ herr]
              have hany : (List.range' (j + 1) (b + 1)).any (fun K =>
                  ((vs.take K).all fun v => smatch v q) &&
                    fixedMatch (vs.drop K) post) = false := by
                simp only [List.any_eq_false]
                intro K hK
                have hKa : j + 1 ≤ K := (List.mem_range'_1.1 hK).1
                have hmem : vs[j] ∈ vs.take K := mem_take_of_index vs hjlt (by omega)
                simp only [Bool.and_eq_true, List.all_eq_true, not_and, Bool.not_eq_true]
                intro hall
                exact absurd (hall vs[j] hmem) (by simp [hb2])
              rw [List.range'_succ] at hany
              rw [hany]
          | true =>
              rw [hb2] at hstep
              simp only [Prod.fst, Prod.snd] at hstep
              rw [hdropfix] at hstep
              simp only [Prod.fst, Prod.snd, if_true] at hstep
              cases hfx : fixedMatch (vs.drop (j + 1)) post with
              | true =>
                  have hok : tryOooMatchImplHelper (j + 1) vs (.ooo q :: post) e =
                      (Except.ok true, e) := by simp [hstep, hfx]
                  rw [tryOooMatchFold_cons_true _ _ _ _ _ _ hok]
                  have hall : ((vs.take (j + 1)).all fun v => smatch v q) = true := by
                    simp only [List.all_eq_true]
                    intro x hx
                    obtain ⟨i, hi, hEq⟩ := List.mem_iff_getElem.1 hx
                    have hilen : i < vs.length := by
                      have := hi; simp [List.length_take] at this; omega
                    have hij : i < j + 1 := by
                      have := hi; simp [List.length_take] at this; omega
                    have hxi : x = vs[i] := by
                      rw [← hEq]; simp [List.getElem_take]
                    subst hxi
                    rcases Nat.lt_or_ge i j with hlt | hge
                    · exact hinv i hilen (by omega)
                    · have : i = j := by omega
                      subst this
                      exact hb2
                  simp [hall, hfx]
              | false =>
                  have hok : tryOooMatchImplHelper (j + 1) vs (.ooo q :: post) e =
                      (Except.ok false, e) := by simp [hstep, hfx]
                  rw [tryOooMatchFold_cons_false _ _ _ _ _ _ hok]
                  rw [ihb (j + 2) (by omega) (fun j2 hj2 hlt => by
                    rcases Nat.lt_or_ge j2 j with hlt2 | hge2
                    · exact hinv j2 hj2 (by omega)
                    · have : j2 = j := by omega
                      subst this
                      exact hb2)]
                  simp [hfx]

/-- On stateless, defined inputs the rest-match resolver computes the
exhaustive split search of the spec. -/
theorem tryOooMatchImpl_spec (vs : List Val) (q : Pat) (post : List Pat) (e : Env)
    (hq : stateless q = true) (hpost : statelessList post = true)
    (hdq : ∀ v ∈ vs, matchDefined v q = true)
    (hdp : ∀ v ∈ vs, ∀ p ∈ post, matchDefined v p = true) :
    tryOooMatchImpl vs (.ooo q :: post) e = (exhaustiveOoo vs q post, e) := by
  rw [tryOooMatchImpl_def, List.range_eq_range',
    tryOooMatchFold_spec vs q post e hq hpost hdq hdp (vs.length + 1) 0 (by omega)
      (fun j hj hlt => absurd hlt (by omega))]
  simp only [exhaustiveOoo, List.range_eq_range']

/-- A whole sequence pattern with exactly one rest element, all of
whose element patterns are stateless and defined on the value tuple,
matches exactly when the declarative split characterisation holds. -/
theorem tupleMatchImpl_spec (pre : List Pat) (vs : List Val) (q : Pat)
    (post : List Pat) (e : Env)
    (hpre : statelessList pre = true) (hq : stateless q = true)
    (hpost : statelessList post = true)
    (hdq : ∀ v ∈ vs, matchDefined v q = true)
    (hdpre : ∀ v ∈ vs, ∀ p ∈ pre, matchDefined v p = true)
    (hdp : ∀ v ∈ vs, ∀ p ∈ post, matchDefined v p = true) :
    tupleMatchImpl vs (pre ++ .ooo q :: post) e = (specOooMatch vs pre q post, e) := by
  induction pre generalizing vs e with
  | nil =>
      rw [List.nil_append,
        tupleMatchImpl_ooo vs _ post e (by simp [isOoo]),
        tryOooMatch_ooo vs _ post e (by simp [isOoo]),
        tryOooMatchImpl_spec vs q post e hq hpost hdq hdp]
      simp [specOooMatch, exhaustiveOoo, fixedMatch]
  | cons p preRest ih =>
      have hp : stateless p = true := by
        have := hpre; simp [statelessList] at this; exact this.1
      have hpr : statelessList preRest = true := by
        have := hpre; simp [statelessList] at this; exact this.2
      have hno : isOoo p = false := isOoo_false_of_stateless hp
      cases vs with
      | nil =>
          rw [List.cons_append, tupleMatchImpl_cons_nil _ _ _ hno]
          simp [specOooMatch, fixedMatch]
      | cons v vsRest =>
          rw [List.cons_append, tupleMatchImpl_cons_cons _ _ _ _ _ hno,
            statelessMatch_smatch v p e hp]
          have hrec := ih vsRest e hpr
            (fun w hw => hdq w (List.mem_cons_of_mem _ hw))
            (fun w hw pp hpp =>
              hdpre w (List.mem_cons_of_mem _ hw) pp (List.mem_cons_of_mem _ hpp))
            (fun w hw pp hpp => hdp w (List.mem_cons_of_mem _ hw) pp hpp)
          have hdec : specOooMatch (v :: vsRest) (p :: preRest) q post =
              (smatch v p && specOooMatch vsRest preRest q post) := by
            simp only [specOooMatch, List.length_cons, List.take_succ_cons,
              List.drop_succ_cons, Nat.succ_sub_succ, fixedMatch,
              Nat.add_right_comm _ 1, Bool.and_assoc]
          cases hb : smatch v p with
          | false => simp [hdec, hb]
          | true => simp [hdec, hb, hrec]

/-- Pointwise description of resetId, proved by strong induction on the
pattern size jointly with the list version: a cell reachable from the
pattern is cleared, every other cell is untouched. -/
theorem resetAux (n : Nat) :
    (∀ p : Pat, Pat.size p ≤ n → ∀ (e : Env) (i : Nat),
        resetId p e i = if i ∈ cellsOf p then none else e i) ∧
    (∀ ps : List Pat, Pat.sizeList ps ≤ n → ∀ (e : Env) (i : Nat),
        resetIdList ps e i = if i ∈ cellsOfList ps then none else e i) := by
  induction n with
  | zero =>
      refine ⟨fun p hp => ?_, fun ps hp e i => ?_⟩
      · have := Pat.size_pos p; omega
      · cases ps with
        | nil => simp [resetIdList, cellsOfList]
        | cons p rest => simp [Pat.sizeList] at hp
  | succ n ihn =>
      obtain ⟨ihP, ihL⟩ := ihn
      refine ⟨fun p hp e i => ?_, fun ps hp e i => ?_⟩
      · cases p with
        | wildcard => simp [resetId, cellsOf]
        | lit w => simp [resetId, cellsOf]
        | meet f => simp [resetId, cellsOf]
        | orPat ps =>
            have hsize : Pat.sizeList ps ≤ n := by simp [Pat.size] at hp; omega
            simp [resetId, cellsOf, ihL ps hsize e i]
        | andPat ps =>
            have hsize : Pat.sizeList ps ≤ n := by simp [Pat.size] at hp; omega
            simp [resetId, cellsOf, ihL ps hsize e i]
        | notPat q =>
            have hsize : Pat.size q ≤ n := by simp [Pat.size] at hp; omega
            simp [resetId, cellsOf, ihP q hsize e i]
        | app f q =>
            have hsize : Pat.size q ≤ n := by simp [Pat.size] at hp; omega
            simp [resetId, cellsOf, ihP q hsize e i]
        | id i0 => simp [resetId, cellsOf, updateEnv, eq_comm]
        | ds ps =>
            have hsize : Pat.sizeList ps ≤ n := by simp [Pat.size] at hp; omega
            simp [resetId, cellsOf, ihL ps hsize e i]
        | ooo q =>
            have hsize : Pat.size q ≤ n := by simp [Pat.size] at hp; omega
            simp [resetId, cellsOf, ihP q hsize e i]
        | postCheck q g =>
            have hsize : Pat.size q ≤ n := by simp [Pat.size] at hp; omega
            simp [resetId, cellsOf, ihP q hsize e i]
      · cases ps with
        | nil => simp [resetIdList, cellsOfList]
        | cons p rest =>
            have hb : Pat.size p ≤ n ∧ Pat.sizeList rest ≤ n := by
              simp [Pat.sizeList] at hp; omega
            rw [show resetIdList (p :: rest) e = resetIdList rest (resetId p e) by
              rw [resetIdList.eq_def]]
            rw [ihL rest hb.2 (resetId p e) i, ihP p hb.1 e i]
            by_cases h1 : i ∈ cellsOfList rest <;>
              by_cases h2 : i ∈ cellsOf p <;>
                simp [cellsOfList, h1, h2, List.mem_append]

/-- Pointwise description of resetId. -/
theorem resetId_apply (p : Pat) (e : Env) (i : Nat) :
    resetId p e i = if i ∈ cellsOf p then none else e i :=
  (resetAux (Pat.size p)).1 p (Nat.le_refl _) e i

/-- Two environments that agree outside the cells of a pattern reset to
the same environment. -/
theorem resetId_congr (p : Pat) (e e2 : Env)
    (h : ∀ i, i ∉ cellsOf p → e i = e2 i) : resetId p e = resetId p e2 := by
  funext i
  rw [resetId_apply, resetId_apply]
  by_cases hc : i ∈ cellsOf p
  · simp [hc]
  · simp [hc, h i hc]

/-- Append decomposition of the Or fold: the fold over a concatenation
first runs the left block; when it succeeds the right block is never
consulted, otherwise the right block continues from the environment the
left block produced. -/
theorem matchOrList_append (v : Val) (l r : List Pat) (e : Env) :
    matchOrList v (l ++ r) e =
      (if (matchOrList v l e).1 then matchOrList v l e
       else matchOrList v r (matchOrList v l e).2) := by
  induction l generalizing e with
  | nil => simp [matchOrList_nil]
  | cons p rest ih =>
      rw [List.cons_append, matchOrList_cons, matchOrList_cons]
      cases hb : (matchPattern v p e).1 <;> simp [hb, ih]

/-- A disjunct that succeeds at every environment forces the Or fold to
succeed. -/
theorem matchOrList_mem_true (v : Val) (ps : List Pat) (e : Env) (p : Pat)
    (hp : p ∈ ps) (hall : ∀ e2 : Env, (matchPattern v p e2).1 = true) :
    (matchOrList v ps e).1 = true := by
  induction ps generalizing e with
  | nil => cases hp
  | cons hd rest ih =>
      rw [matchOrList_cons]
      rcases List.mem_cons.1 hp with rfl | hmem
      · simp [hall e]
      · cases hb : (matchPattern v hd e).1 <;> simp [hb]
        exact ih _ hmem

/-! Claim theorems.  Each claim of the specification is settled by one
theorem below (with a counterexample theorem where the claim as stated
fails on the code, and a witness theorem instantiating hypotheses). -/

/-- C3 counterexample: the claim says every capture cell inside a
negated sub-pattern is reset (uncommitted) after evaluating the Not,
and in particular Not(Capture(x)) leaves x uncommitted.  On the code,
matching Not(Capture(0)) against 3 returns false and leaves cell 0
committed (isSome), refuting the claim at this concrete input. -/
theorem claimC3_counterexample :
    (matchPattern (.int 3) (.notPat (.id 0)) emptyEnv).1 = false ∧
      ((matchPattern (.int 3) (.notPat (.id 0)) emptyEnv).2 0).isSome = true := by
  constructor <;>
    simp [matchPattern_not, matchPattern_id, idMatchValue, emptyEnv, updateEnv]

/-- C3 amended: match(v, Not(P)) returns the logical negation of the
sub-match and leaves the capture cells exactly as the evaluation of P
left them — no reset happens during matching; in particular
Not(Capture(x)) commits x when it was uncommitted.  Clearing the cells
inside a Not is done only by the resetId recursion, which forwards to
the sub-pattern. -/
theorem claimC3_theorem :
    (∀ (v : Val) (q : Pat) (e : Env),
        matchPattern v (.notPat q) e =
          (!(matchPattern v q e).1, (matchPattern v q e).2)) ∧
    (∀ (i : Nat) (v : Val) (e : Env), e i = none →
        matchPattern v (.notPat (.id i)) e = (false, updateEnv e i (some v))) ∧
    (∀ (q : Pat) (e : Env), resetId (.notPat q) e = resetId q e) := by
  refine ⟨matchPattern_not, fun i v e h => ?_, fun q e => ?_⟩
  · rw [matchPattern_not, matchPattern_id]
    simp [idMatchValue, h]
  · simp [resetId]

/-- C3 witness: the committed-capture consequence at a concrete input. -/
theorem claimC3_witness :
    matchPattern (.int 3) (.notPat (.id 0)) emptyEnv =
      (false, updateEnv emptyEnv 0 (some (.int 3))) :=
  claimC3_theorem.2.1 0 (.int 3) emptyEnv rfl

/-- C4: a capture cell (Id) commits the first value matched against it
within an attempt and reports success; every later match against the
same cell succeeds exactly when the new value equals the committed one.
Concretely, Sequence(Capture(x), Capture(x)) matches (3, 3) and rejects
(3, 4); after resetBindings, re-matching against (4, 4) succeeds. -/
theorem claimC4_theorem :
    (∀ (i : Nat) (v : Val) (e : Env), e i = none →
        matchPattern v (.id i) e = (true, updateEnv e i (some v))) ∧
    (∀ (i : Nat) (v w : Val) (e : Env), e i = some w →
        matchPattern v (.id i) e = (Val.beq w v, e)) ∧
    (matchPattern (.tup [.int 3, .int 3]) (.ds [.id 0, .id 0]) emptyEnv).1 = true ∧
    (matchPattern (.tup [.int 3, .int 4]) (.ds [.id 0, .id 0]) emptyEnv).1 = false ∧
    (matchPattern (.tup [.int 4, .int 4]) (.ds [.id 0, .id 0])
      (resetId (.ds [.id 0, .id 0])
        (matchPattern (.tup [.int 3, .int 4]) (.ds [.id 0, .id 0]) emptyEnv).2)).1 =
      true := by
  refine ⟨fun i v e h => ?_, fun i v w e h => ?_, ?_, ?_, ?_⟩
  · rw [matchPattern_id]; simp [idMatchValue, h]
  · rw [matchPattern_id]; simp [idMatchValue, h]
  all_goals
    simp [matchPattern_ds, tupleMatchImpl_cons_cons, tupleMatchImpl_nil, isOoo,
      matchPattern_id, idMatchValue, emptyEnv, updateEnv, resetId, resetIdList,
      Val.beq]

/-- C4 witness: the commit rule and the consistency rule applied at a
concrete cell. -/
theorem claimC4_witness :
    matchPattern (.int 3) (.id 0) emptyEnv =
        (true, updateEnv emptyEnv 0 (some (.int 3))) ∧
      matchPattern (.int 4) (.id 0) (updateEnv emptyEnv 0 (some (.int 3))) =
        (Val.beq (.int 3) (.int 4), updateEnv emptyEnv 0 (some (.int 3))) :=
  ⟨claimC4_theorem.1 0 (.int 3) emptyEnv rfl,
   claimC4_theorem.2.1 0 (.int 4) (.int 3) _ (by simp [updateEnv])⟩

/-- C5: the rest-match resolver's abort signal never escapes the
resolver: a helper that raises the break makes the fold return false
immediately with that helper's environment, a helper that returns a
boolean continues the fold normally, and at the public matchPattern
boundary the aborted search of Sequence(Rest(isEven), Literal(5))
against (2, 3, 5) is observed only as the value false. -/
theorem claimC5_theorem :
    (∀ (vs : List Val) (ps : List Pat) (i : Nat) (rest : List Nat) (e e1 : Env)
        (u : Unit), tryOooMatchImplHelper i vs ps e = (Except.error u, e1) →
        tryOooMatchFold vs ps (i :: rest) e = (false, e1)) ∧
    (∀ (vs : List Val) (ps : List Pat) (i : Nat) (rest : List Nat) (e e1 : Env)
        (b : Bool), tryOooMatchImplHelper i vs ps e = (Except.ok b, e1) →
        tryOooMatchFold vs ps (i :: rest) e =
          (if b then (true, e1) else tryOooMatchFold vs ps rest e1)) ∧
    (matchPattern (.tup [.int 2, .int 3, .int 5]) (.ds restEvenLit5) emptyEnv).1 =
      false := by
  refine ⟨fun vs ps i rest e e1 u h => tryOooMatchFold_cons_error vs ps i rest e e1 u h,
    fun vs ps i rest e e1 b h => ?_, ?_⟩
  · cases b
    · simp only [if_false, Bool.false_eq_true]
      exact tryOooMatchFold_cons_false vs ps i rest e e1 h
    · simp only [if_true]
      exact tryOooMatchFold_cons_true vs ps i rest e e1 h
  · simp [restEvenLit5, evenP, evenPred, matchPattern_ds, tupleMatchImpl_ooo, isOoo,
      tryOooMatch_ooo, tryOooMatchImpl_def, tryOooMatchFold_cons, tryOooMatchFold_nil,
      tryOooMatchImplHelper_zero, tryOooMatchImplHelper_succ_eq, tryOooMatch_nil,
      tryOooMatch_cons_nil, tryOooMatch_cons_cons, matchPattern_meet, matchPattern_lit,
      matchDefined, eqDefined, Val.beq, show List.range 4 = [0, 1, 2, 3] from rfl]

/-- C5 witness: the break raised at split length 2 on (2, 3, 5) is
converted to a plain false by the fold. -/
theorem claimC5_witness :
    tryOooMatchFold [Val.int 2, Val.int 3, Val.int 5] restEvenLit5 [2, 3]
      emptyEnv = (false, emptyEnv) :=
  claimC5_theorem.1 [Val.int 2, Val.int 3, Val.int 5] restEvenLit5 2 [3] emptyEnv
    emptyEnv ()
    (by simp [restEvenLit5, evenP, evenPred, tryOooMatchImplHelper_succ_eq,
      matchPattern_meet, matchDefined, emptyEnv])

/-- C6: PostCheck evaluates the inner pattern first and consults the
guard only if it succeeded: the result is the conjunction of the inner
result with the guard read at the environment the inner match produced,
that environment is returned unchanged (captures stay committed even
when the guard fails), and when the inner pattern fails the guard is
irrelevant — any two guards give the same outcome. -/
theorem claimC6_theorem :
    (∀ (v : Val) (q : Pat) (g : Env → Bool) (e : Env),
        matchPattern v (.postCheck q g) e =
          ((matchPattern v q e).1 && g (matchPattern v q e).2,
           (matchPattern v q e).2)) ∧
    (∀ (v : Val) (q : Pat) (g g2 : Env → Bool) (e : Env),
        (matchPattern v q e).1 = false →
        matchPattern v (.postCheck q g) e = matchPattern v (.postCheck q g2) e) ∧
    (matchPattern (.int 3) (.postCheck (.id 0) (fun _ => false)) emptyEnv).1 =
      false ∧
    ((matchPattern (.int 3) (.postCheck (.id 0) (fun _ => false)) emptyEnv).2
      0).isSome = true := by
  refine ⟨fun v q g e => ?_, fun v q g g2 e h => ?_, ?_, ?_⟩
  · rw [matchPattern_postCheck]
    cases hb : (matchPattern v q e).1 <;> simp [hb]
  · rw [matchPattern_postCheck, matchPattern_postCheck, h]
    simp
  all_goals
    simp [matchPattern_postCheck, matchPattern_id, idMatchValue, emptyEnv, updateEnv]

/-- C6 witness: guard irrelevance when the inner pattern fails, at a
concrete failing literal. -/
theorem claimC6_witness :
    matchPattern (.int 3) (.postCheck (.lit (.int 7)) (fun _ => true)) emptyEnv =
      matchPattern (.int 3) (.postCheck (.lit (.int 7)) (fun _ => false))
        emptyEnv :=
  claimC6_theorem.2.1 (.int 3) (.lit (.int 7)) (fun _ => true) (fun _ => false)
    emptyEnv (by simp [matchPattern_lit, Val.beq])

/-- C7: Or evaluates its disjuncts left to right and stops at the first
success — the fold over a concatenation never consults the right block
when the left block succeeds and otherwise threads the environment into
it; a disjunct that succeeds at every environment forces success; on
Or(Wildcard, Capture(0)) against 7 the match returns true with the
environment untouched, so the side effect of the second disjunct never
happens. -/
theorem claimC7_theorem :
    (∀ (v : Val) (ps : List Pat) (e : Env),
        matchPattern v (.orPat ps) e = matchOrList v ps e) ∧
    (∀ (v : Val) (l r : List Pat) (e : Env),
        matchOrList v (l ++ r) e =
          (if (matchOrList v l e).1 then matchOrList v l e
           else matchOrList v r (matchOrList v l e).2)) ∧
    (∀ (v : Val) (ps : List Pat) (e : Env) (p : Pat), p ∈ ps →
        (∀ e2 : Env, (matchPattern v p e2).1 = true) →
        (matchOrList v ps e).1 = true) ∧
    matchPattern (.int 7) (.orPat [.wildcard, .id 0]) emptyEnv = (true, emptyEnv) := by
  refine ⟨matchPattern_or, matchOrList_append, matchOrList_mem_true, ?_⟩
  simp [matchPattern_or, matchOrList_cons, matchPattern_wildcard]

/-- C7 witness: a disjunct that always succeeds makes the whole Or
succeed without consulting what follows. -/
theorem claimC7_witness :
    (matchOrList (.int 7) [.wildcard, .id 0] emptyEnv).1 = true :=
  claimC7_theorem.2.2.1 (.int 7) [.wildcard, .id 0] emptyEnv .wildcard
    (List.mem_cons_self _ _) (fun e2 => by simp [matchPattern_wildcard])

/-- C1: for a value tuple and a sequence pattern with exactly one Rest
element (a stateless fixed prefix, a stateless Rest sub-pattern, a
stateless fixed suffix, all pairings defined), matchPattern returns
true exactly when some split length K between 0 and the remaining
length makes the prefix match its slots, every middle element match
the Rest sub-pattern, and the suffix match the remaining slice; with
no such K it returns false.  Statelessness makes the declarative
right-hand side meaningful: element matches then neither read nor
write capture state. -/
theorem claimC1_theorem (vs : List Val) (pre : List Pat) (q : Pat)
    (post : List Pat) (e : Env)
    (hpre : statelessList pre = true) (hq : stateless q = true)
    (hpost : statelessList post = true)
    (hdq : ∀ v ∈ vs, matchDefined v q = true)
    (hdpre : ∀ v ∈ vs, ∀ p ∈ pre, matchDefined v p = true)
    (hdp : ∀ v ∈ vs, ∀ p ∈ post, matchDefined v p = true) :
    (matchPattern (.tup vs) (.ds (pre ++ .ooo q :: post)) e).1 =
      specOooMatch vs pre q post := by
  rw [matchPattern_ds, tupleMatchImpl_spec pre vs q post e hpre hq hpost hdq hdpre hdp]

/-- C1 witness: the declarative characterisation instantiated on
Sequence(Rest(isEven), Literal(5)) against (2, 4, 5). -/
theorem claimC1_witness :
    (matchPattern (.tup [.int 2, .int 4, .int 5])
        (.ds ([] ++ .ooo evenP :: [.lit (.int 5)])) emptyEnv).1 =
      specOooMatch [.int 2, .int 4, .int 5] [] evenP [.lit (.int 5)] :=
  claimC1_theorem [.int 2, .int 4, .int 5] [] evenP [.lit (.int 5)] emptyEnv
    (by simp [statelessList])
    (by simp [evenP, stateless])
    (by simp [statelessList, stateless])
    (fun v hv => by simp [evenP, matchDefined])
    (fun v hv p hp => by simp at hp)
    (fun v hv p hp => by
      simp at hv hp
      subst hp
      rcases hv with rfl | rfl | rfl <;> simp [matchDefined, eqDefined])

/-- C2 counterexample: the claim asserts that against (2, 3, 5) the
search fails via the abort at K equal to 1 without trying K equal to 2.
On the code, the helper for split length 1 returns an ordinary false
(its per-element check looks at position 0, value 2, which is even),
and the abort is raised only by the helper for split length 2, whose
newly included element at position 1 is the odd 3 — so candidate 2 is
reached and it, not candidate 1, raises the break. -/
theorem claimC2_counterexample :
    (tryOooMatchImplHelper 1 [Val.int 2, Val.int 3, Val.int 5] restEvenLit5
        emptyEnv).1 = Except.ok false ∧
      (tryOooMatchImplHelper 2 [Val.int 2, Val.int 3, Val.int 5] restEvenLit5
        emptyEnv).1 = Except.error () := by
  constructor <;>
    simp [restEvenLit5, evenP, evenPred, tryOooMatchImplHelper_succ_eq,
      tryOooMatch_nil, tryOooMatch_cons_nil, tryOooMatch_cons_cons,
      matchPattern_meet, matchPattern_lit, matchDefined, eqDefined, Val.beq,
      emptyEnv, isOoo]

/-- C2 amended: the ascending-split search with per-element pruning
computes the same boolean as the exhaustive search over every split
length from 0 to N (for stateless, defined inputs).  For
Sequence(Rest(isEven), Literal(5)): against (2, 4, 5) it succeeds with
split length 2 (lengths 0 and 1 fail); against (2, 3, 5) it fails via
the abort at split length 2 — the per-element check of position 1,
value 3 — without trying split length 3 (the fold result does not
depend on any candidates after 2); against (2, 4, 6) it fails because
no split length makes the final element equal 5. -/
theorem claimC2_theorem :
    (∀ (vs : List Val) (q : Pat) (post : List Pat) (e : Env),
        stateless q = true → statelessList post = true →
        (∀ v ∈ vs, matchDefined v q = true) →
        (∀ v ∈ vs, ∀ p ∈ post, matchDefined v p = true) →
        (tryOooMatchImpl vs (.ooo q :: post) e).1 = exhaustiveOoo vs q post) ∧
    (matchPattern (.tup [.int 2, .int 4, .int 5]) (.ds restEvenLit5)
        emptyEnv).1 = true ∧
    ((([Val.int 2, Val.int 4, Val.int 5].take 2).all fun v => smatch v evenP) &&
        fixedMatch ([Val.int 2, Val.int 4, Val.int 5].drop 2) [.lit (.int 5)]) =
      true ∧
    fixedMatch [Val.int 2, Val.int 4, Val.int 5] [.lit (.int 5)] = false ∧
    fixedMatch [Val.int 4, Val.int 5] [.lit (.int 5)] = false ∧
    (matchPattern (.tup [.int 2, .int 3, .int 5]) (.ds restEvenLit5)
        emptyEnv).1 = false ∧
    (tryOooMatchImplHelper 2 [Val.int 2, Val.int 3, Val.int 5] restEvenLit5
        emptyEnv).1 = Except.error () ∧
    (∀ ks : List Nat,
        tryOooMatchFold [Val.int 2, Val.int 3, Val.int 5] restEvenLit5
          (0 :: 1 :: 2 :: ks) emptyEnv = (false, emptyEnv)) ∧
    (matchPattern (.tup [.int 2, .int 4, .int 6]) (.ds restEvenLit5)
        emptyEnv).1 = false ∧
    exhaustiveOoo [Val.int 2, Val.int 4, Val.int 6] evenP [.lit (.int 5)] =
      false := by
  refine ⟨fun vs q post e hq hpost hdq hdp => ?_, ?_, ?_, ?_, ?_, ?_, ?_, ?_, ?_, ?_⟩
  · rw [tryOooMatchImpl_spec vs q post e hq hpost hdq hdp]
  all_goals
    first
    | (intro ks
       simp [restEvenLit5, evenP, evenPred, matchPattern_ds, tupleMatchImpl_ooo,
         isOoo, tryOooMatch_ooo, tryOooMatchImpl_def, tryOooMatchFold_cons,
         tryOooMatchFold_nil, tryOooMatchImplHelper_zero,
         tryOooMatchImplHelper_succ_eq, tryOooMatch_nil, tryOooMatch_cons_nil,
         tryOooMatch_cons_cons, matchPattern_meet, matchPattern_lit, matchDefined,
         eqDefined, Val.beq, emptyEnv, smatch, fixedMatch, exhaustiveOoo,
         show List.range 4 = [0, 1, 2, 3] from rfl])
    | simp [restEvenLit5, evenP, evenPred, matchPattern_ds, tupleMatchImpl_ooo,
        isOoo, tryOooMatch_ooo, tryOooMatchImpl_def, tryOooMatchFold_cons,
        tryOooMatchFold_nil, tryOooMatchImplHelper_zero,
        tryOooMatchImplHelper_succ_eq, tryOooMatch_nil, tryOooMatch_cons_nil,
        tryOooMatch_cons_cons, matchPattern_meet, matchPattern_lit, matchDefined,
        eqDefined, Val.beq, emptyEnv, smatch, fixedMatch, exhaustiveOoo,
        show List.range 4 = [0, 1, 2, 3] from rfl]

/-- C2 witness: the refinement equation instantiated on the spec
example, with every hypothesis discharged. -/
theorem claimC2_witness :
    (tryOooMatchImpl [Val.int 2, Val.int 4, Val.int 5]
        (.ooo evenP :: [.lit (.int 5)]) emptyEnv).1 =
      exhaustiveOoo [Val.int 2, Val.int 4, Val.int 5] evenP [.lit (.int 5)] :=
  claimC2_theorem.1 [.int 2, .int 4, .int 5] evenP [.lit (.int 5)] emptyEnv
    (by simp [evenP, stateless])
    (by simp [statelessList, stateless])
    (fun v hv => by simp [evenP, matchDefined])
    (fun v hv p hp => by
      simp at hv hp
      subst hp
      rcases hv with rfl | rfl | rfl <;> simp [matchDefined, eqDefined])

/-- On a rest-free pattern list shorter than the value list, the
sequence walk returns false: the pattern list runs out with values
remaining and the empty-pattern case reports false. -/
theorem tupleMatchImpl_long (ps : List Pat) :
    ∀ (vs : List Val) (e : Env), ps.all (fun p => !isOoo p) = true →
      ps.length < vs.length → (tupleMatchImpl vs ps e).1 = false := by
  induction ps with
  | nil =>
      intro vs e hno hlen
      rw [tupleMatchImpl_nil]
      cases vs with
      | nil => simp at hlen
      | cons v r => simp
  | cons p rest ih =>
      intro vs e hno hlen
      have h1 : isOoo p = false := by
        simp [List.all_cons] at hno; simpa using hno.1
      have h2 : rest.all (fun p => !isOoo p) = true := by
        simp [List.all_cons] at hno
        simp only [List.all_eq_true]
        intro x hx
        simpa using hno.2 x hx
      cases vs with
      | nil => simp at hlen
      | cons v r =>
          rw [tupleMatchImpl_cons_cons _ _ _ _ _ h1]
          cases hb : (matchPattern v p e).1 <;> simp [hb]
          exact ih r _ h2 (by simp at hlen; omega)

/-- On a rest-free pattern list longer than the value list, no matching
rule exists: the deleted empty-value specialization of TupleMatchHelper
makes the pairing statically undefined. -/
theorem dsDefined_short (ps : List Pat) :
    ∀ vs : List Val, ps.all (fun p => !isOoo p) = true →
      vs.length < ps.length → dsDefined vs ps = false := by
  induction ps with
  | nil => intro vs hno hlen; simp at hlen
  | cons p rest ih =>
      intro vs hno hlen
      have h1 : isOoo p = false := by
        simp [List.all_cons] at hno; simpa using hno.1
      have h2 : rest.all (fun p => !isOoo p) = true := by
        simp [List.all_cons] at hno
        simp only [List.all_eq_true]
        intro x hx
        simpa using hno.2 x hx
      cases vs with
      | nil => simp [dsDefined, h1]
      | cons v r =>
          have hlt : r.length < rest.length := by simp at hlen; omega
          simp [dsDefined, h1, ih r h2 hlt]

/-- C8 counterexample: the claim says a fixed-arity sequence pattern
against a value sequence of different length fails with no partial
matching, identically for longer and shorter value sequences.  On the
code, Sequence(Capture(0), Wildcard) against the longer (3, 4, 5)
returns false only after element-wise matching the prefix — the
capture cell is left committed, so partial matching did occur — while
against the shorter (3,) the pairing is statically undefined
(MatchFuncDefined is false) rather than a runtime false. -/
theorem claimC8_counterexample :
    (matchPattern (.tup [.int 3, .int 4, .int 5]) (.ds [.id 0, .wildcard])
        emptyEnv).1 = false ∧
      ((matchPattern (.tup [.int 3, .int 4, .int 5]) (.ds [.id 0, .wildcard])
        emptyEnv).2 0).isSome = true ∧
      matchDefined (.tup [.int 3]) (.ds [.id 0, .wildcard]) = false := by
  refine ⟨?_, ?_, ?_⟩ <;>
    simp [matchPattern_ds, tupleMatchImpl_cons_cons, tupleMatchImpl_nil, isOoo,
      matchPattern_id, matchPattern_wildcard, idMatchValue, emptyEnv, updateEnv,
      matchDefined, dsDefined]

/-- C8 amended: for a rest-free sequence pattern of arity N, a longer
value sequence makes the match return false (after element-wise
evaluation of the first N slots, which can commit captures), while a
shorter value sequence admits no matching rule at all — the
(value shape, pattern) pair is statically undefined, so no runtime
match occurs there. -/
theorem claimC8_theorem :
    (∀ (vs : List Val) (ps : List Pat) (e : Env),
        ps.all (fun p => !isOoo p) = true → ps.length < vs.length →
        (matchPattern (.tup vs) (.ds ps) e).1 = false) ∧
    (∀ (vs : List Val) (ps : List Pat),
        ps.all (fun p => !isOoo p) = true → vs.length < ps.length →
        matchDefined (.tup vs) (.ds ps) = false) := by
  constructor
  · intro vs ps e hno hlen
    rw [matchPattern_ds]
    exact tupleMatchImpl_long ps vs e hno hlen
  · intro vs ps hno hlen
    have : matchDefined (.tup vs) (.ds ps) = dsDefined vs ps := by
      simp [matchDefined]
    rw [this]
    exact dsDefined_short ps vs hno hlen

/-- C8 witness: both arity-mismatch behaviours at concrete inputs. -/
theorem claimC8_witness :
    (matchPattern (.tup [.int 3, .int 4, .int 5]) (.ds [.id 0, .wildcard])
        emptyEnv).1 = false ∧
      matchDefined (.tup [.int 3]) (.ds [.id 0, .wildcard]) = false :=
  ⟨claimC8_theorem.1 [.int 3, .int 4, .int 5] [.id 0, .wildcard] emptyEnv
      (by simp [isOoo]) (by simp),
   claimC8_theorem.2 [.int 3] [.id 0, .wildcard] (by simp [isOoo]) (by simp)⟩

/-- C9: resetBindings clears every committed capture cell reachable
from the pattern: for every cell index reachable through combinators,
sequences, rest, transform and post-check nodes, the cell is
uncommitted after the call. -/
theorem claimC9_theorem (p : Pat) (e : Env) (i : Nat) (h : i ∈ cellsOf p) :
    resetId p e i = none := by
  rw [resetId_apply]
  simp [h]

/-- C9 witness: a committed cell nested under a sequence node is
cleared. -/
theorem claimC9_witness :
    resetId (.ds [.notPat (.id 0), .wildcard])
      (updateEnv emptyEnv 0 (some (.int 3))) 0 = none :=
  claimC9_theorem (.ds [.notPat (.id 0), .wildcard])
    (updateEnv emptyEnv 0 (some (.int 3))) 0
    (by simp [cellsOf, cellsOfList])

/-- C10: the per-arm entry point PatternPair::matchValue resets every
capture cell reachable from the arm pattern before matching, so its
outcome cannot depend on stale committed values: environments that
agree outside the arm's cells give identical outcomes, and reusing the
arm Sequence(Capture(0), Capture(0)) on (4, 4) right after a failed
attempt against (3, 4) — which did leave cell 0 committed — still
succeeds without any explicit resetBindings call by the caller. -/
theorem claimC10_theorem :
    (∀ (p : Pat) (v : Val) (e : Env),
        PatternPair.matchValue p v e = matchPattern v p (resetId p e)) ∧
    (∀ (p : Pat) (v : Val) (e e2 : Env), (∀ i, i ∉ cellsOf p → e i = e2 i) →
        PatternPair.matchValue p v e = PatternPair.matchValue p v e2) ∧
    ((PatternPair.matchValue (.ds [.id 0, .id 0]) (.tup [.int 3, .int 4])
        emptyEnv).2 0).isSome = true ∧
    (PatternPair.matchValue (.ds [.id 0, .id 0]) (.tup [.int 4, .int 4])
      (PatternPair.matchValue (.ds [.id 0, .id 0]) (.tup [.int 3, .int 4])
        emptyEnv).2).1 = true := by
  refine ⟨fun p v e => rfl, fun p v e e2 h => ?_, ?_, ?_⟩
  · show matchPattern v p (resetId p e) = matchPattern v p (resetId p e2)
    rw [resetId_congr p e e2 h]
  all_goals
    simp [PatternPair.matchValue, resetId, resetIdList, matchPattern_ds,
      tupleMatchImpl_cons_cons, tupleMatchImpl_nil, isOoo, matchPattern_id,
      idMatchValue, emptyEnv, updateEnv, Val.beq]

/-- C10 witness: stale committed state outside an arm evaluation does
not change the arm's outcome. -/
theorem claimC10_witness :
    PatternPair.matchValue (.ds [.id 0, .id 0]) (.tup [.int 3, .int 3])
        (updateEnv emptyEnv 0 (some (.int 9))) =
      PatternPair.matchValue (.ds [.id 0, .id 0]) (.tup [.int 3, .int 3])
        emptyEnv :=
  claimC10_theorem.2.1 (.ds [.id 0, .id 0]) (.tup [.int 3, .int 3])
    (updateEnv emptyEnv 0 (some (.int 9))) emptyEnv
    (fun i hi => by
      simp [cellsOf, cellsOfList] at hi
      simp [updateEnv, emptyEnv, hi])

end Matchit
